import Mathlib

/-!
Shallow embedding of the completion-toggle / all-complete-notification flow of the
staff-checklist-hub repository, together with the realtime dispatch helper and the
send-notification edge function.

Sources embedded:
* `src/pages/EditChecklist.tsx`, second document — the `ChecklistDetail` page:
  `fetchChecklist`, `handleToggleComplete` (lines 657-765), the progress derivation
  (lines 781-784) and the `allCompletedNotified` ref (line 565).
* `src/hooks/useRealtime.ts` — `handlePayload` (lines 30-46).
* `supabase/functions/send-notification/index.ts`, first document — the `serve`
  handler (lines 66-166).
* the SQL schema (the `task_completions` table and its UNIQUE constraint).

Machine integers do not occur in this flow; ids are modelled as `Nat`, timestamps as
`Nat`, and JS strings as `String`.
-/

namespace StaffChecklist

/-- Local page state of one task row (`ChecklistItem` interface, EditChecklist.tsx
lines 539-545).  `completed` is the locally tracked completion flag for the current
user. -/
structure ChecklistItem where
  id : Nat
  title : String
  sort_order : Nat
  completed : Bool
deriving DecidableEq, Repr

/-- Row of the `task_completions` table (schema: columns `checklist_item_id`,
`user_id`, `checklist_id`, `completed_at DEFAULT now()`, with
`UNIQUE (checklist_item_id, user_id, checklist_id)`). -/
structure Completion where
  checklist_item_id : Nat
  user_id : Nat
  checklist_id : Nat
  completed_at : Nat
deriving DecidableEq, Repr

/-- Predicate used by the delete branch of the toggle: the row matches the
`(checklist_item_id, user_id, checklist_id)` triple (the three `.eq` filters of
EditChecklist.tsx lines 668-670). -/
def matchesTriple (c : Completion) (itemId userId checklistId : Nat) : Bool :=
  c.checklist_item_id = itemId && c.user_id = userId && c.checklist_id = checklistId

/-- A completion row for the triple exists in the table. -/
def completionExists (db : List Completion) (itemId userId checklistId : Nat) : Bool :=
  db.any (fun c => matchesTriple c itemId userId checklistId)

/-- Number of rows of the table matching the triple. -/
def countTriple (db : List Completion) (itemId userId checklistId : Nat) : Nat :=
  (db.filter (fun c => matchesTriple c itemId userId checklistId)).length

/-- Persistence step of `handleToggleComplete` (EditChecklist.tsx lines 663-684):
if `item.completed`, delete every row matching the triple; otherwise insert one row
whose `completed_at` is defaulted to `now()` by the schema.  The returned boolean is
the new completion state of the item, i.e. the flipped flag the local-state update on
lines 687-690 stores back. -/
def toggleWrite (db : List Completion) (item : ChecklistItem)
    (userId checklistId now : Nat) : List Completion × Bool :=
  if item.completed then
    (db.filter (fun c => !(matchesTriple c item.id userId checklistId)), false)
  else
    (db ++ [⟨item.id, userId, checklistId, now⟩], true)

/-- Local-state update of `handleToggleComplete` (lines 687-689): flip the
`completed` flag of every item whose id is the toggled one. -/
def updateItems (items : List ChecklistItem) (itemId : Nat) : List ChecklistItem :=
  items.map (fun i => if i.id = itemId then { i with completed := !i.completed } else i)

/-- Guard condition `updatedItems.every((i) => i.completed)` (line 693). -/
def allCompleted (items : List ChecklistItem) : Bool :=
  items.all (fun i => i.completed)

/-- Derived fullness of the checklist for the current user: all items completed and
at least one item present.  This is the condition the notification guard on line 694
tests (together with the not-yet-notified flag), and it agrees with the rendered
`isComplete` flag of lines 781-784. -/
def fullness (items : List ChecklistItem) : Bool :=
  allCompleted items && decide (0 < items.length)

/-- Tally `completedCount` of line 781. -/
def completedCount (items : List ChecklistItem) : Nat :=
  (items.filter (fun i => i.completed)).length

/-- Tally `totalCount` of line 782. -/
def totalCount (items : List ChecklistItem) : Nat :=
  items.length

/-- Rendered completeness of lines 783-784: `progress === 100 && totalCount > 0`,
where `progress = (completedCount / totalCount) * 100`; the ratio equals 100 exactly
when the two counts are equal. -/
def isComplete (items : List ChecklistItem) : Bool :=
  decide (completedCount items = totalCount items) && decide (0 < totalCount items)

/-- Number of completion rows of the table belonging to the `(checklist, user)`
pair — the completion count the spec's fullness formula compares against the task
count. -/
def countCompletions (db : List Completion) (checklistId userId : Nat) : Nat :=
  (db.filter (fun c => c.checklist_id = checklistId && c.user_id = userId)).length

/-- Row of the `profiles` table as selected on lines 728-731: `user_id, email,
phone` (the `phone` column is nullable). -/
structure Profile where
  user_id : Nat
  email : String
  phone : Option String
deriving DecidableEq, Repr

/-- Row inserted into the `notifications` table by the all-complete pass
(lines 717-723). -/
structure NotificationRecord where
  user_id : Nat
  title : String
  message : String
  type : String
  related_checklist_id : Nat
deriving DecidableEq, Repr

/-- Backend data the notify pass reads: the admin user ids (rows of `user_roles`
with `role = 'admin'`, lines 711-714), the `profiles` table, and the already
resolved strings used in the message template (employee name, department name and
checklist title, lines 702-708 and 720). -/
structure Env where
  admins : List Nat
  profiles : List Profile
  employeeName : String
  departmentName : String
  checklistTitle : String
deriving Repr

/-- In-app notification fan-out (lines 717-723): one record per admin, with the
fixed title, the templated message, `type: 'all_tasks_complete'` and
`related_checklist_id` pointing at the checklist. -/
def buildNotifications (env : Env) (checklistId : Nat) : List NotificationRecord :=
  env.admins.map (fun a =>
    { user_id := a
      title := "Checklist Completed"
      message := env.employeeName ++ " in \"" ++ env.departmentName ++
        "\" has completed the checklist \"" ++ env.checklistTitle ++ "\""
      type := "all_tasks_complete"
      related_checklist_id := checklistId })

/-- The admin profiles fetched on lines 728-731: `profiles` restricted with
`.in('user_id', admins)`. -/
def adminProfiles (profiles : List Profile) (admins : List Nat) : List Profile :=
  profiles.filter (fun p => admins.contains p.user_id)

/-- Outcome of one `supabase.functions.invoke('send-notification', ...)` call for a
given recipient user id; `dispatchFails uid = true` models the call rejecting. -/
def invokeSend (dispatchFails : Nat → Bool) (p : Profile) : Except String Unit :=
  if dispatchFails p.user_id then Except.error "Failed to send notification"
  else Except.ok ()

/-- External dispatch fan-out (lines 733-754): iterate over the fetched admin
profiles; for each profile with a phone on file make exactly one invoke attempt,
wrapped in a per-iteration try/catch — on rejection the error is logged and the loop
continues with the next profile.  Returns the attempted recipient ids in loop order
together with the recipient ids whose attempt failed (the logged failures). -/
def dispatchLoop (ps : List Profile) (dispatchFails : Nat → Bool) : List Nat × List Nat :=
  match ps with
  | [] => ([], [])
  | p :: rest =>
    if p.phone.isSome then
      match invokeSend dispatchFails p with
      | Except.ok _ =>
        let r := dispatchLoop rest dispatchFails
        (p.user_id :: r.1, r.2)
      | Except.error _ =>
        let r := dispatchLoop rest dispatchFails
        (p.user_id :: r.1, p.user_id :: r.2)
    else
      dispatchLoop rest dispatchFails

/-- Local page state touched by the toggle handler: the item list and the
per-session `allCompletedNotified` ref (line 565, initialised to `false` when the
page mounts). -/
structure PageState where
  items : List ChecklistItem
  notified : Bool
deriving DecidableEq, Repr

/-- Everything `handleToggleComplete` leaves behind: the `task_completions` table,
the local item list and notified flag, whether the all-complete branch ran
(`fired` — the success toast and sound of lines 696-699), the notification rows
stored by the batch insert, whether that insert failed (its result object is
discarded by line 725, so this is observable only backend-side), the external
dispatch attempts and logged dispatch failures, and whether the catch block's
`toast.error('Failed to update task')` ran (line 761). -/
structure ToggleEffects where
  db : List Completion
  items : List ChecklistItem
  notified : Bool
  fired : Bool
  insertedNotifs : List NotificationRecord
  notifInsertFailed : Bool
  attempts : List Nat
  failedDispatches : List Nat
  errorToast : Bool
deriving Repr

/-- Body of the `try` block of `handleToggleComplete` (lines 662-758).  The only
statements that throw into the outer catch are the two completion writes
(`if (error) throw error`, lines 672 and 683), modelled by `writeFails`.  The
notifications batch insert on line 725 is awaited without checking its result, so
its failure (`notifInsertFails`) does not throw; each external dispatch is guarded
by its own try/catch, so its failure does not throw either. -/
def toggleBody (db : List Completion) (s : PageState) (env : Env)
    (userId checklistId now : Nat) (item : ChecklistItem)
    (writeFails notifInsertFails : Bool) (dispatchFails : Nat → Bool) :
    Except Unit ToggleEffects :=
  if writeFails then Except.error ()
  else
    let db1 := (toggleWrite db item userId checklistId now).1
    let updatedItems := updateItems s.items item.id
    if allCompleted updatedItems && !s.notified && decide (0 < updatedItems.length) then
      -- all-complete branch (lines 694-755): set the ref, toast, then notify
      if 0 < env.admins.length then
        let notifs := buildNotifications env checklistId
        let stored := if notifInsertFails then [] else notifs
        let r := dispatchLoop (adminProfiles env.profiles env.admins) dispatchFails
        Except.ok
          { db := db1, items := updatedItems, notified := true, fired := true
            insertedNotifs := stored, notifInsertFailed := notifInsertFails
            attempts := r.1, failedDispatches := r.2, errorToast := false }
      else
        Except.ok
          { db := db1, items := updatedItems, notified := true, fired := true
            insertedNotifs := [], notifInsertFailed := false
            attempts := [], failedDispatches := [], errorToast := false }
    else if !allCompleted updatedItems then
      -- reset branch (lines 756-758)
      Except.ok
        { db := db1, items := updatedItems, notified := false, fired := false
          insertedNotifs := [], notifInsertFailed := false
          attempts := [], failedDispatches := [], errorToast := false }
    else
      Except.ok
        { db := db1, items := updatedItems, notified := s.notified, fired := false
          insertedNotifs := [], notifInsertFailed := false
          attempts := [], failedDispatches := [], errorToast := false }

/-- `handleToggleComplete` (lines 657-765): run the try body; the catch block
(lines 759-764) logs, shows the error toast and leaves the page state and the table
untouched — a throwing write persisted nothing. -/
def handleToggleComplete (db : List Completion) (s : PageState) (env : Env)
    (userId checklistId now : Nat) (item : ChecklistItem)
    (writeFails notifInsertFails : Bool) (dispatchFails : Nat → Bool) : ToggleEffects :=
  match toggleBody db s env userId checklistId now item
      writeFails notifInsertFails dispatchFails with
  | Except.ok e => e
  | Except.error _ =>
    { db := db, items := s.items, notified := s.notified, fired := false
      insertedNotifs := [], notifInsertFailed := false
      attempts := [], failedDispatches := [], errorToast := true }

/-- One successful toggle restricted to the in-session components (item list,
notified ref, and whether the all-complete branch fired).  `tid` is the id of the
item the user clicked. -/
def toggleStep (s : PageState) (tid : Nat) : PageState × Bool :=
  let updatedItems := updateItems s.items tid
  if allCompleted updatedItems && !s.notified && decide (0 < updatedItems.length) then
    ({ items := updatedItems, notified := true }, true)
  else if !allCompleted updatedItems then
    ({ items := updatedItems, notified := false }, false)
  else
    ({ items := updatedItems, notified := s.notified }, false)

/-- Run a sequence of successful toggles from a page state; the second component
counts how many of the steps fired the all-complete branch. -/
def runTrace (s : PageState) : List Nat → PageState × Nat
  | [] => (s, 0)
  | tid :: rest =>
    let step := toggleStep s tid
    let r := runTrace step.1 rest
    (r.1, (if step.2 then 1 else 0) + r.2)

/-- Number of INCOMPLETE→COMPLETE transitions of the derived fullness along a toggle
sequence. -/
def transitions (s : PageState) : List Nat → Nat
  | [] => 0
  | tid :: rest =>
    let s1 := (toggleStep s tid).1
    (if !fullness s.items && fullness s1.items then 1 else 0) + transitions s1 rest

/-- Which of the four optional handlers of `useRealtime` the caller supplied
(useRealtime.ts lines 12-15). -/
structure Handlers where
  onInsert : Bool
  onUpdate : Bool
  onDelete : Bool
  onChange : Bool
deriving DecidableEq, Repr

/-- Tag for one handler invocation performed by `handlePayload`. -/
inductive HandlerCall where
  | change
  | insert
  | update
  | delete
deriving DecidableEq, Repr

/-- `handlePayload` (useRealtime.ts lines 30-46): call `onChange` first when it is
supplied, then switch on `payload.eventType` and call the matching specific handler
when it is supplied; the switch has no default case.  Returns the invocation
sequence. -/
def handlePayload (h : Handlers) (eventType : String) : List HandlerCall :=
  (if h.onChange then [HandlerCall.change] else []) ++
  (if eventType = "INSERT" then (if h.onInsert then [HandlerCall.insert] else [])
   else if eventType = "UPDATE" then (if h.onUpdate then [HandlerCall.update] else [])
   else if eventType = "DELETE" then (if h.onDelete then [HandlerCall.delete] else [])
   else [])

/-- Parsed JSON body of a send-notification request (`NotificationRequest`,
index.ts lines 9-17).  A missing field and an empty string are both falsy in the
validation on line 116, so required fields are modelled as plain strings where `""`
stands for absent. -/
structure NotifRequestBody where
  userId : String
  userEmail : String
  userPhone : Option String
  title : String
  message : String
deriving DecidableEq, Repr

/-- Incoming HTTP request as the handler observes it: the method, the
`Authorization` header if present, and the result of `req.json()` (`none` when the
body fails to parse, which throws into the outer catch). -/
structure HttpRequest where
  method : String
  authHeader : Option String
  body : Option NotifRequestBody
deriving DecidableEq, Repr

/-- Response of the handler: the HTTP status plus the `error` and `success` fields
of the JSON body (`none` when the field is absent; the OPTIONS response has a null
body). -/
structure HttpResponse where
  status : Nat
  error : Option String
  success : Option Bool
deriving DecidableEq, Repr

/-- Character-level rendering of the JS `header.startsWith('Bearer ')` check of
line 75: the header's first seven characters are `Bearer `. -/
def hasBearer (h : String) : Bool :=
  "Bearer ".data.isPrefixOf h.data

/-- The `serve` handler of `send-notification/index.ts` (lines 66-166).
`tokenValid h` models `supabase.auth.getUser()` succeeding under header `h`
(lines 90-98); `configured` models both NotificationAPI env secrets being present
(lines 102-111); `apiResult` models the `sendNotificationAPI` call, whose `error`
value carries the internal failure detail that reaches only the server-side log —
the catch block (lines 156-165) maps any thrown error to the constant message
`'An unexpected error occurred'`. -/
def serveNotification (req : HttpRequest) (tokenValid : String → Bool)
    (configured : Bool) (apiResult : Except String Unit) : HttpResponse :=
  if req.method = "OPTIONS" then
    { status := 200, error := none, success := none }
  else
    match req.authHeader with
    | none => { status := 401, error := some "Unauthorized", success := none }
    | some h =>
      if !hasBearer h then
        { status := 401, error := some "Unauthorized", success := none }
      else if !tokenValid h then
        { status := 401, error := some "Invalid authentication", success := none }
      else if !configured then
        { status := 500, error := some "Notification service not configured",
          success := some false }
      else
        match req.body with
        | none =>
          -- req.json() threw; the outer catch answers with the generic message
          { status := 500, error := some "An unexpected error occurred",
            success := some false }
        | some b =>
          if b.userId = "" || b.userEmail = "" || b.title = "" || b.message = "" then
            { status := 400, error := some "Missing required fields",
              success := some false }
          else if 200 < b.title.length || 2000 < b.message.length then
            { status := 400, error := some "Title or message too long",
              success := some false }
          else
            match apiResult with
            | Except.error _ =>
              { status := 500, error := some "An unexpected error occurred",
                success := some false }
            | Except.ok _ =>
              { status := 200, error := none, success := some true }

/-! ### Helper lemmas -/

theorem dispatchLoop_attempts (ps : List Profile) (f : Nat → Bool) :
    (dispatchLoop ps f).1 = (ps.filter (fun p => p.phone.isSome)).map (fun p => p.user_id) := by
  induction ps with
  | nil => rfl
  | cons p rest ih =>
    by_cases hp : p.phone.isSome
    · by_cases hf : f p.user_id <;>
        simp [dispatchLoop, invokeSend, hp, hf, ih]
    · simp [dispatchLoop, hp, ih]

/-! ### C1 -/

/-- C1: under the session coherence between the local `completed` flag and the
`task_completions` table, the toggle deletes the row for the triple and yields the
new completed state `false` when such a row exists, and otherwise inserts exactly
one row for the triple (with `completed_at` defaulted to `now`) and yields `true`. -/
theorem toggleWrite_deletes_or_inserts (db : List Completion) (item : ChecklistItem)
    (userId checklistId now : Nat)
    (hcoh : item.completed = completionExists db item.id userId checklistId) :
    (completionExists db item.id userId checklistId = true →
      (toggleWrite db item userId checklistId now).2 = false ∧
      (toggleWrite db item userId checklistId now).1 =
        db.filter (fun c => !(matchesTriple c item.id userId checklistId)) ∧
      completionExists (toggleWrite db item userId checklistId now).1
        item.id userId checklistId = false) ∧
    (completionExists db item.id userId checklistId = false →
      (toggleWrite db item userId checklistId now).2 = true ∧
      (toggleWrite db item userId checklistId now).1 =
        db ++ [⟨item.id, userId, checklistId, now⟩] ∧
      countTriple (toggleWrite db item userId checklistId now).1
        item.id userId checklistId = 1) := by
  constructor
  · intro hex
    have hc : item.completed = true := hcoh.trans hex
    refine ⟨by simp [toggleWrite, hc], by simp [toggleWrite, hc], ?_⟩
    simp only [toggleWrite, hc, if_pos]
    rw [Bool.eq_false_iff]
    intro hany
    rcases List.any_eq_true.mp hany with ⟨c, hcmem, hcm⟩
    have := (List.mem_filter.mp hcmem).2
    simp [hcm] at this
  · intro hnex
    have hc : item.completed = false := hcoh.trans hnex
    refine ⟨by simp [toggleWrite, hc], by simp [toggleWrite, hc], ?_⟩
    have hzero : countTriple db item.id userId checklistId = 0 := by
      unfold countTriple
      rw [List.length_eq_zero, List.filter_eq_nil_iff]
      intro c hcmem hcm
      exact absurd (List.any_eq_true.mpr ⟨c, hcmem, hcm⟩) (by simp [completionExists] at hnex ⊢; exact hnex)
    unfold countTriple at hzero ⊢
    simp only [toggleWrite, hc, Bool.false_eq_true, if_neg, not_false_iff]
    rw [List.filter_append, List.length_append, hzero]
    simp [matchesTriple]

/-- Witness for C1 at a concrete table and item (no row for the triple: the toggle
inserts exactly one and yields `true`). -/
theorem toggleWrite_deletes_or_inserts_witness :
    (toggleWrite [] ⟨5, "wipe counters", 0, false⟩ 2 3 9).2 = true ∧
    countTriple (toggleWrite [] ⟨5, "wipe counters", 0, false⟩ 2 3 9).1 5 2 3 = 1 := by
  have h := toggleWrite_deletes_or_inserts [] ⟨5, "wipe counters", 0, false⟩ 2 3 9 (by decide)
  exact ⟨(h.2 (by decide)).1, (h.2 (by decide)).2.2⟩

/-! ### C9 -/

/-- C9: when all four handlers are supplied, every delivered change event (operation
kind INSERT, UPDATE or DELETE) invokes the any-change handler first and then exactly
the one specific handler selected by the operation kind. -/
theorem handlePayload_change_then_specific (h : Handlers) (eventType : String)
    (hc : h.onChange = true) (hi : h.onInsert = true) (hu : h.onUpdate = true)
    (hd : h.onDelete = true)
    (het : eventType = "INSERT" ∨ eventType = "UPDATE" ∨ eventType = "DELETE") :
    handlePayload h eventType =
      [HandlerCall.change,
       if eventType = "INSERT" then HandlerCall.insert
       else if eventType = "UPDATE" then HandlerCall.update
       else HandlerCall.delete] := by
  rcases het with het | het | het <;> subst het <;>
    simp [handlePayload, hc, hi, hu, hd]

/-- Witness for C9 at a concrete handler set and an UPDATE event. -/
theorem handlePayload_change_then_specific_witness :
    handlePayload ⟨true, true, true, true⟩ "UPDATE" =
      [HandlerCall.change, HandlerCall.update] := by
  have h := handlePayload_change_then_specific ⟨true, true, true, true⟩ "UPDATE"
    rfl rfl rfl rfl (Or.inr (Or.inl rfl))
  simpa using h

/-! ### C10 -/

/-- C10: when the persistence write of the toggle fails, the handler's catch block
is the only thing that runs: the local item states and the per-session notified flag
are unchanged, no notification rows are stored, no external dispatch is attempted,
the table is untouched, and the only effect is the error toast. -/
theorem toggle_writeFailure_only_error_toast (db : List Completion) (s : PageState)
    (env : Env) (userId checklistId now : Nat) (item : ChecklistItem)
    (notifInsertFails : Bool) (dispatchFails : Nat → Bool) :
    (handleToggleComplete db s env userId checklistId now item
        true notifInsertFails dispatchFails).items = s.items ∧
    (handleToggleComplete db s env userId checklistId now item
        true notifInsertFails dispatchFails).notified = s.notified ∧
    (handleToggleComplete db s env userId checklistId now item
        true notifInsertFails dispatchFails).db = db ∧
    (handleToggleComplete db s env userId checklistId now item
        true notifInsertFails dispatchFails).insertedNotifs = [] ∧
    (handleToggleComplete db s env userId checklistId now item
        true notifInsertFails dispatchFails).attempts = [] ∧
    (handleToggleComplete db s env userId checklistId now item
        true notifInsertFails dispatchFails).fired = false ∧
    (handleToggleComplete db s env userId checklistId now item
        true notifInsertFails dispatchFails).errorToast = true :=
  ⟨rfl, rfl, rfl, rfl, rfl, rfl, rfl⟩

/-! ### C7 -/

/-- C7: in the external-dispatch fan-out, each per-recipient attempt is wrapped in
its own try/catch, so the set of attempts does not depend on which deliveries fail
(one recipient's failure never blocks the rest); each profile with a phone on file
gets exactly one attempt and profiles without a phone get none, and under distinct
recipient ids every recipient is attempted at most once (no retry). -/
theorem dispatch_per_recipient_isolation (ps : List Profile) (f g : Nat → Bool)
    (hnodup : (ps.map (fun p => p.user_id)).Nodup) :
    (dispatchLoop ps f).1 = (dispatchLoop ps g).1 ∧
    (dispatchLoop ps f).1 =
      (ps.filter (fun p => p.phone.isSome)).map (fun p => p.user_id) ∧
    (∀ a : Nat, ((dispatchLoop ps f).1.count a ≤ 1)) := by
  refine ⟨by rw [dispatchLoop_attempts, dispatchLoop_attempts], dispatchLoop_attempts ps f, ?_⟩
  intro a
  rw [dispatchLoop_attempts]
  have hsub : ((ps.filter (fun p => p.phone.isSome)).map (fun p => p.user_id)).Sublist
      (ps.map (fun p => p.user_id)) :=
    (List.filter_sublist ps).map (fun p => p.user_id)
  exact List.nodup_iff_count_le_one.mp (hsub.nodup hnodup) a

/-- Witness for C7: three profiles with distinct ids, the middle one failing and one
without a phone — both failing and non-failing runs attempt exactly the two
phone-holding recipients once each. -/
theorem dispatch_per_recipient_isolation_witness :
    (dispatchLoop [⟨1, "a", some "111"⟩, ⟨2, "b", some "222"⟩, ⟨3, "c", none⟩]
        (fun u => u = 2)).1 =
      (dispatchLoop [⟨1, "a", some "111"⟩, ⟨2, "b", some "222"⟩, ⟨3, "c", none⟩]
        (fun _ => false)).1 ∧
    (dispatchLoop [⟨1, "a", some "111"⟩, ⟨2, "b", some "222"⟩, ⟨3, "c", none⟩]
        (fun u => u = 2)).1.count 2 ≤ 1 := by
  have h := dispatch_per_recipient_isolation
    [⟨1, "a", some "111"⟩, ⟨2, "b", some "222"⟩, ⟨3, "c", none⟩]
    (fun u => u = 2) (fun _ => false) (by decide)
  exact ⟨h.1, h.2.2 2⟩

/-! ### C3: counting lemmas -/

theorem length_filter_split (db : List Completion) (P M : Completion → Bool)
    (himp : ∀ c, M c = true → P c = true) :
    (db.filter P).length =
      ((db.filter (fun c => !(M c))).filter P).length + (db.filter M).length := by
  induction db with
  | nil => rfl
  | cons c rest ih =>
    by_cases hM : M c = true
    · have hP := himp c hM
      simp only [List.filter_cons, hM, hP, Bool.not_true, if_true, if_false,
        Bool.false_eq_true, List.length_cons]
      omega
    · have hM' : M c = false := by revert hM; cases M c <;> simp
      by_cases hP : P c = true
      · simp only [List.filter_cons, hM', hP, Bool.not_false, if_true, if_false,
          Bool.false_eq_true, List.length_cons]
        omega
      · have hP' : P c = false := by revert hP; cases P c <;> simp
        simp only [List.filter_cons, hM', hP', Bool.not_false, if_true, if_false,
          Bool.false_eq_true, List.length_cons]
        omega

theorem countCompletions_remove (db : List Completion) (itemId userId checklistId : Nat) :
    countCompletions db checklistId userId =
      countCompletions (db.filter (fun c => !(matchesTriple c itemId userId checklistId)))
        checklistId userId
      + countTriple db itemId userId checklistId := by
  unfold countCompletions countTriple
  apply length_filter_split
  intro c h
  simp only [matchesTriple, Bool.and_eq_true, decide_eq_true_eq] at h
  simp [h.1.2, h.2]

theorem countTriple_eq_one (db : List Completion) (itemId userId checklistId : Nat)
    (hex : completionExists db itemId userId checklistId = true)
    (hle : countTriple db itemId userId checklistId ≤ 1) :
    countTriple db itemId userId checklistId = 1 := by
  rcases List.any_eq_true.mp hex with ⟨c, hmem, hm⟩
  have hpos : 0 < countTriple db itemId userId checklistId :=
    List.length_pos_of_mem (List.mem_filter.mpr ⟨hmem, hm⟩)
  omega

theorem completionExists_remove_ne (db : List Completion)
    (i j userId checklistId : Nat) (hne : j ≠ i) :
    completionExists (db.filter (fun c => !(matchesTriple c i userId checklistId)))
        j userId checklistId
      = completionExists db j userId checklistId := by
  unfold completionExists
  rw [Bool.eq_iff_iff]
  simp only [List.any_eq_true, List.mem_filter]
  constructor
  · rintro ⟨c, ⟨hmem, _⟩, hm⟩
    exact ⟨c, hmem, hm⟩
  · rintro ⟨c, hmem, hm⟩
    refine ⟨c, ⟨hmem, ?_⟩, hm⟩
    simp only [matchesTriple, Bool.and_eq_true, decide_eq_true_eq] at hm
    simp [matchesTriple, hm.1.1, hne]

theorem countTriple_remove_le (db : List Completion)
    (i j userId checklistId : Nat) :
    countTriple (db.filter (fun c => !(matchesTriple c i userId checklistId)))
        j userId checklistId
      ≤ countTriple db j userId checklistId := by
  unfold countTriple
  exact ((List.filter_sublist db).filter _).length_le

theorem completedCount_eq_countCompletions
    (items : List ChecklistItem) (db : List Completion) (userId checklistId : Nat)
    (hcoh : ∀ i ∈ items, i.completed = completionExists db i.id userId checklistId)
    (hnodup : (items.map (fun i => i.id)).Nodup)
    (huniq : ∀ i ∈ items, countTriple db i.id userId checklistId ≤ 1)
    (hdom : ∀ c ∈ db, c.checklist_id = checklistId → c.user_id = userId →
        c.checklist_item_id ∈ items.map (fun i => i.id)) :
    completedCount items = countCompletions db checklistId userId := by
  induction items generalizing db with
  | nil =>
    unfold completedCount countCompletions
    simp only [List.filter_nil, List.length_nil]
    symm
    rw [List.length_eq_zero, List.filter_eq_nil_iff]
    intro c hc hP
    simp only [Bool.and_eq_true, decide_eq_true_eq] at hP
    exact absurd (hdom c hc hP.1 hP.2) (by simp)
  | cons i rest ih =>
    have hmapcons : ((i :: rest).map (fun i => i.id)) = i.id :: rest.map (fun i => i.id) := rfl
    rw [hmapcons] at hnodup hdom
    have hninr : i.id ∉ rest.map (fun i => i.id) := (List.nodup_cons.mp hnodup).1
    have hrestnodup : (rest.map (fun i => i.id)).Nodup := (List.nodup_cons.mp hnodup).2
    by_cases hic : i.completed = true
    · have hex : completionExists db i.id userId checklistId = true := by
        rw [← hcoh i (by simp), hic]
      have hone := countTriple_eq_one db i.id userId checklistId hex (huniq i (by simp))
      have hsplit := countCompletions_remove db i.id userId checklistId
      have hrec : completedCount rest =
          countCompletions
            (db.filter (fun c => !(matchesTriple c i.id userId checklistId)))
            checklistId userId := by
        apply ih
        · intro j hj
          have hjne : j.id ≠ i.id := by
            intro hji
            exact hninr (hji ▸ List.mem_map_of_mem (fun i => i.id) hj)
          rw [completionExists_remove_ne db i.id j.id userId checklistId hjne]
          exact hcoh j (by simp [hj])
        · exact hrestnodup
        · intro j hj
          exact le_trans (countTriple_remove_le db i.id j.id userId checklistId)
            (huniq j (by simp [hj]))
        · intro c hc hcc hcu
          have hmem : c ∈ db := (List.mem_filter.mp hc).1
          have hnm : ((!(matchesTriple c i.id userId checklistId)) = true) :=
            (List.mem_filter.mp hc).2
          have hin := hdom c hmem hcc hcu
          rcases List.mem_cons.mp hin with h1 | h2
          · exfalso
            have hm : matchesTriple c i.id userId checklistId = true := by
              simp [matchesTriple, h1, hcu, hcc]
            rw [hm] at hnm
            simp at hnm
          · exact h2
      have hhead : completedCount (i :: rest) = completedCount rest + 1 := by
        unfold completedCount
        simp [List.filter_cons, hic]
      omega
    · have hic' : i.completed = false := by revert hic; cases i.completed <;> simp
      have hnex : completionExists db i.id userId checklistId = false := by
        rw [← hcoh i (by simp), hic']
      have hhead : completedCount (i :: rest) = completedCount rest := by
        unfold completedCount
        simp [List.filter_cons, hic']
      rw [hhead]
      apply ih
      · intro j hj
        exact hcoh j (by simp [hj])
      · exact hrestnodup
      · intro j hj
        exact huniq j (by simp [hj])
      · intro c hc hcc hcu
        have hin := hdom c hc hcc hcu
        rcases List.mem_cons.mp hin with h1 | h2
        · exfalso
          have hm : matchesTriple c i.id userId checklistId = true := by
            simp [matchesTriple, h1, hcu, hcc]
          have hext : completionExists db i.id userId checklistId = true :=
            List.any_eq_true.mpr ⟨c, hc, hm⟩
          rw [hext] at hnex
          simp at hnex
        · exact h2

theorem completedCount_eq_total_iff (items : List ChecklistItem) :
    (completedCount items = totalCount items) ↔ allCompleted items = true := by
  induction items with
  | nil => simp [completedCount, totalCount, allCompleted]
  | cons i rest ih =>
    have hle : completedCount rest ≤ totalCount rest := by
      unfold completedCount totalCount
      exact (List.filter_sublist rest).length_le
    by_cases hic : i.completed = true
    · have hcc : completedCount (i :: rest) = completedCount rest + 1 := by
        unfold completedCount
        simp [List.filter_cons, hic]
      have htot : totalCount (i :: rest) = totalCount rest + 1 := rfl
      have hall : allCompleted (i :: rest) = allCompleted rest := by
        simp [allCompleted, List.all_cons, hic]
      rw [hcc, htot, hall, ← ih]
      omega
    · have hic' : i.completed = false := by revert hic; cases i.completed <;> simp
      have hcc : completedCount (i :: rest) = completedCount rest := by
        unfold completedCount
        simp [List.filter_cons, hic']
      have htot : totalCount (i :: rest) = totalCount rest + 1 := rfl
      have hall : allCompleted (i :: rest) = false := by
        simp [allCompleted, List.all_cons, hic']
      rw [hcc, htot, hall]
      constructor
      · intro h
        omega
      · intro h
        exact absurd h (by simp)

/-- C3: with the local flags coherent with the `task_completions` table (each item
is flagged iff its row exists, item ids distinct, at most one row per item, and
every row of the pair referencing one of the checklist's items), the derived
fullness is true exactly when the user's completion count for the checklist equals
the task count and the task count is positive; a zero-task checklist is never
complete, and the notification guard's fullness agrees with the rendered
`isComplete` flag. -/
theorem fullness_iff_completion_count (items : List ChecklistItem)
    (db : List Completion) (userId checklistId : Nat)
    (hcoh : ∀ i ∈ items, i.completed = completionExists db i.id userId checklistId)
    (hnodup : (items.map (fun i => i.id)).Nodup)
    (huniq : ∀ i ∈ items, countTriple db i.id userId checklistId ≤ 1)
    (hdom : ∀ c ∈ db, c.checklist_id = checklistId → c.user_id = userId →
        c.checklist_item_id ∈ items.map (fun i => i.id)) :
    (fullness items = true ↔
      (countCompletions db checklistId userId = totalCount items ∧
        0 < totalCount items)) ∧
    (totalCount items = 0 → fullness items = false ∧ isComplete items = false) ∧
    fullness items = isComplete items := by
  have hcount := completedCount_eq_countCompletions items db userId checklistId
    hcoh hnodup huniq hdom
  have hiff := completedCount_eq_total_iff items
  have hfc : fullness items = isComplete items := by
    unfold fullness isComplete
    by_cases hall : allCompleted items = true
    · have heq : completedCount items = totalCount items := hiff.mpr hall
      rw [hall, heq]
      simp [totalCount]
    · have hall' : allCompleted items = false := by
        revert hall; cases allCompleted items <;> simp
      rw [hall']
      have hne : ¬(completedCount items = totalCount items) := fun h => hall (hiff.mp h)
      simp [hne]
  refine ⟨?_, ?_, hfc⟩
  · constructor
    · intro hf
      unfold fullness at hf
      rw [Bool.and_eq_true] at hf
      obtain ⟨h1, h2⟩ := hf
      have h2' : 0 < items.length := of_decide_eq_true h2
      exact ⟨by rw [← hcount]; exact hiff.mpr h1, h2'⟩
    · rintro ⟨hc, hp⟩
      rw [← hcount] at hc
      unfold fullness
      rw [hiff.mp hc]
      simpa [totalCount] using hp
  · intro h0
    rw [hfc]
    unfold isComplete
    simp [h0]

/-- Witness for C3: a two-task checklist where the user completed both tasks — the
coherence hypotheses hold, the completion count is 2 = task count > 0, and fullness
is true. -/
theorem fullness_iff_completion_count_witness :
    (fullness [⟨1, "sweep", 0, true⟩, ⟨2, "mop", 1, true⟩] = true ↔
      (countCompletions [⟨1, 4, 7, 10⟩, ⟨2, 4, 7, 11⟩] 7 4 =
        totalCount [⟨1, "sweep", 0, true⟩, ⟨2, "mop", 1, true⟩] ∧
       0 < totalCount [⟨1, "sweep", 0, true⟩, ⟨2, "mop", 1, true⟩])) ∧
    fullness [⟨1, "sweep", 0, true⟩, ⟨2, "mop", 1, true⟩] = true := by
  have h := fullness_iff_completion_count
    [⟨1, "sweep", 0, true⟩, ⟨2, "mop", 1, true⟩]
    [⟨1, 4, 7, 10⟩, ⟨2, 4, 7, 11⟩] 4 7
    (by decide) (by decide) (by decide) (by decide)
  exact ⟨h.1, by decide⟩

/-! ### C2: session traces of the notified flag -/

theorem updateItems_map_id (items : List ChecklistItem) (tid : Nat) :
    (updateItems items tid).map (fun i => i.id) = items.map (fun i => i.id) := by
  unfold updateItems
  rw [List.map_map]
  apply List.map_congr_left
  intro i _
  by_cases h : i.id = tid <;> simp [h]

theorem updateItems_length (items : List ChecklistItem) (tid : Nat) :
    (updateItems items tid).length = items.length := by
  unfold updateItems
  exact List.length_map items _

theorem toggleStep_items (s : PageState) (tid : Nat) :
    (toggleStep s tid).1.items = updateItems s.items tid := by
  unfold toggleStep
  simp only []
  split
  · rfl
  · split <;> rfl

theorem fullness_flip_false (items : List ChecklistItem) (tid : Nat)
    (hmem : tid ∈ items.map (fun i => i.id))
    (hfull : allCompleted items = true) :
    allCompleted (updateItems items tid) = false := by
  rcases List.mem_map.mp hmem with ⟨i, hi, hid⟩
  have hic : i.completed = true := List.all_eq_true.mp hfull i hi
  have hmem' : ({ i with completed := !i.completed } : ChecklistItem) ∈
      updateItems items tid := by
    unfold updateItems
    have := List.mem_map_of_mem
      (fun j => if j.id = tid then { j with completed := !j.completed } else j) hi
    simpa [hid] using this
  rw [Bool.eq_false_iff]
  intro hall
  have := List.all_eq_true.mp hall _ hmem'
  rw [hic] at this
  simp at this

/-- Step correctness: a successful toggle of a rendered item fires the all-complete
branch exactly when the derived fullness transitions from false to true, and it
preserves the invariant that the notified flag only holds in a fully complete
state. -/
theorem toggleStep_spec (s : PageState) (tid : Nat)
    (hmem : tid ∈ s.items.map (fun i => i.id))
    (hinv : s.notified = true → fullness s.items = true) :
    ((toggleStep s tid).2 = (!fullness s.items && fullness (toggleStep s tid).1.items)) ∧
    ((toggleStep s tid).1.notified = true → fullness (toggleStep s tid).1.items = true) := by
  have hlen : (updateItems s.items tid).length = s.items.length :=
    updateItems_length s.items tid
  have hflip : fullness s.items = true → allCompleted (updateItems s.items tid) = false := by
    intro hf
    exact fullness_flip_false s.items tid hmem (Bool.and_eq_true _ _ ▸ hf).1
  unfold toggleStep
  by_cases hg : (allCompleted (updateItems s.items tid) && !s.notified &&
      decide (0 < (updateItems s.items tid).length)) = true
  · rw [if_pos hg]
    have ha : allCompleted (updateItems s.items tid) = true :=
      ((Bool.and_eq_true _ _ ▸ (Bool.and_eq_true _ _ ▸ hg).1).1)
    have hn : s.notified = false := by
      have := ((Bool.and_eq_true _ _ ▸ (Bool.and_eq_true _ _ ▸ hg).1).2)
      revert this; cases s.notified <;> simp
    have hl : decide (0 < (updateItems s.items tid).length) = true :=
      (Bool.and_eq_true _ _ ▸ hg).2
    have hfu : fullness (updateItems s.items tid) = true := by
      unfold fullness
      rw [ha, hl]
      rfl
    have hbefore : fullness s.items = false := by
      rw [Bool.eq_false_iff]
      intro hf
      rw [hflip hf] at ha
      simp at ha
    refine ⟨?_, fun _ => hfu⟩
    simp [hbefore, hfu]
  · rw [if_neg hg]
    by_cases hac : allCompleted (updateItems s.items tid) = true
    · -- guard failed although everything is complete: impossible for a rendered item
      exfalso
      have hitems : 0 < s.items.length := by
        rcases List.mem_map.mp hmem with ⟨i, hi, _⟩
        exact List.length_pos_of_mem hi
      have hn : s.notified = true := by
        by_contra hn'
        have hn'' : s.notified = false := by revert hn'; cases s.notified <;> simp
        apply hg
        rw [hac, hn'']
        simp [hlen, hitems]
      have hf := hinv hn
      rw [hflip hf] at hac
      simp at hac
    · have hac' : allCompleted (updateItems s.items tid) = false := by
        revert hac; cases allCompleted (updateItems s.items tid) <;> simp
      rw [if_pos (by rw [hac']; rfl)]
      have hfu : fullness (updateItems s.items tid) = false := by
        unfold fullness
        rw [hac']
        rfl
      refine ⟨by simp [hfu], ?_⟩
      intro h
      simp at h

theorem runTrace_fires_eq_transitions (trace : List Nat) (s : PageState)
    (hinv : s.notified = true → fullness s.items = true)
    (hmem : ∀ tid ∈ trace, tid ∈ s.items.map (fun i => i.id)) :
    (runTrace s trace).2 = transitions s trace := by
  induction trace generalizing s with
  | nil => rfl
  | cons tid rest ih =>
    have hmem0 : tid ∈ s.items.map (fun i => i.id) := hmem tid (by simp)
    have hstep := toggleStep_spec s tid hmem0 hinv
    have hids : ((toggleStep s tid).1.items).map (fun i => i.id) =
        s.items.map (fun i => i.id) := by
      rw [toggleStep_items]
      exact updateItems_map_id s.items tid
    have hrest := ih (toggleStep s tid).1 hstep.2
      (fun t ht => by rw [hids]; exact hmem t (by simp [ht]))
    show (if (toggleStep s tid).2 then 1 else 0) + (runTrace (toggleStep s tid).1 rest).2 =
      (if !fullness s.items && fullness (toggleStep s tid).1.items then 1 else 0) +
        transitions (toggleStep s tid).1 rest
    rw [hrest, hstep.1]

/-- C2: within one session (the notified flag starts out `false`), along any
sequence of toggles of rendered items the all-complete branch fires exactly as many
times as the derived fullness transitions from INCOMPLETE to COMPLETE; in
particular re-entering COMPLETE without first leaving it cannot re-fire. -/
theorem session_fires_once_per_transition (s : PageState) (trace : List Nat)
    (hstart : s.notified = false)
    (hmem : ∀ tid ∈ trace, tid ∈ s.items.map (fun i => i.id)) :
    (runTrace s trace).2 = transitions s trace :=
  runTrace_fires_eq_transitions trace s (fun h => absurd (hstart ▸ h) (by simp)) hmem

/-- Witness for C2: a two-task checklist toggled to complete, partially undone and
re-completed — two fullness transitions, two fires. -/
theorem session_fires_once_per_transition_witness :
    (runTrace ⟨[⟨1, "a", 0, false⟩, ⟨2, "b", 1, false⟩], false⟩ [1, 2, 2, 2]).2 =
      transitions ⟨[⟨1, "a", 0, false⟩, ⟨2, "b", 1, false⟩], false⟩ [1, 2, 2, 2] ∧
    (runTrace ⟨[⟨1, "a", 0, false⟩, ⟨2, "b", 1, false⟩], false⟩ [1, 2, 2, 2]).2 = 2 := by
  refine ⟨session_fires_once_per_transition
    ⟨[⟨1, "a", 0, false⟩, ⟨2, "b", 1, false⟩], false⟩ [1, 2, 2, 2] rfl (by decide), ?_⟩
  decide

/-! ### C4 -/

/-- Counterexample to C4: on a single-task checklist, toggling the task on (first
fire), then off, then on again fires the all-complete branch a second time — the
claim says the trace must fire at most once.  Toggling the task off reverts the
derived fullness to INCOMPLETE, which resets the per-session flag, so the final
toggle is a fresh INCOMPLETE→COMPLETE transition and fires again. -/
theorem single_task_off_on_refires :
    (runTrace ⟨[⟨1, "close register", 0, false⟩], false⟩ [1, 1, 1]).2 = 2 ∧
    ¬((runTrace ⟨[⟨1, "close register", 0, false⟩], false⟩ [1, 1, 1]).2 ≤ 1) := by
  decide

/-- C4 as amended: on a single-task checklist, after the all-complete branch has
fired (task completed, flag set), toggling the task off and back on fires the
branch exactly once more — the off-toggle leaves COMPLETE and resets the flag, so
the on-toggle is a new INCOMPLETE→COMPLETE transition; a second fire never happens
without such an intervening revert to INCOMPLETE (the middle state is not full). -/
theorem single_task_off_on_fires_once_more (item : ChecklistItem)
    (hc : item.completed = true) :
    (runTrace ⟨[item], true⟩ [item.id, item.id]).2 = 1 ∧
    fullness (toggleStep ⟨[item], true⟩ item.id).1.items = false := by
  have hoff : toggleStep ⟨[item], true⟩ item.id =
      ({ items := [{ item with completed := false }], notified := false }, false) := by
    unfold toggleStep updateItems
    simp [allCompleted, hc]
  have hon : toggleStep (PageState.mk [{ item with completed := false }] false) item.id =
      ({ items := [{ item with completed := true }], notified := true }, true) := by
    unfold toggleStep updateItems
    simp [allCompleted]
  constructor
  · show (if (toggleStep ⟨[item], true⟩ item.id).2 then 1 else 0) +
      ((if (toggleStep (toggleStep ⟨[item], true⟩ item.id).1 item.id).2 then 1 else 0) + 0) =
      1
    rw [hoff]
    simp only []
    rw [hon]
    rfl
  · rw [hoff]
    simp [fullness, allCompleted]

/-- Witness for C4's amended statement at a concrete completed task. -/
theorem single_task_off_on_fires_once_more_witness :
    (runTrace ⟨[⟨3, "lock up", 0, true⟩], true⟩ [3, 3]).2 = 1 ∧
    fullness (toggleStep ⟨[⟨3, "lock up", 0, true⟩], true⟩ 3).1.items = false :=
  single_task_off_on_fires_once_more ⟨3, "lock up", 0, true⟩ rfl

/-! ### C5 and C6: effects of a fired toggle -/

theorem handleToggle_fire_effects (db : List Completion) (s : PageState) (env : Env)
    (userId checklistId now : Nat) (item : ChecklistItem)
    (notifInsertFails : Bool) (dispatchFails : Nat → Bool)
    (hfired : (handleToggleComplete db s env userId checklistId now item
        false notifInsertFails dispatchFails).fired = true) :
    (handleToggleComplete db s env userId checklistId now item
        false notifInsertFails dispatchFails).insertedNotifs =
      (if notifInsertFails then [] else buildNotifications env checklistId) ∧
    (handleToggleComplete db s env userId checklistId now item
        false notifInsertFails dispatchFails).attempts =
      ((adminProfiles env.profiles env.admins).filter
        (fun p => p.phone.isSome)).map (fun p => p.user_id) ∧
    (handleToggleComplete db s env userId checklistId now item
        false notifInsertFails dispatchFails).errorToast = false ∧
    (handleToggleComplete db s env userId checklistId now item
        false notifInsertFails dispatchFails).db =
      (toggleWrite db item userId checklistId now).1 := by
  by_cases hg : (allCompleted (updateItems s.items item.id) && !s.notified &&
      decide (0 < (updateItems s.items item.id).length)) = true
  · by_cases hA : 0 < env.admins.length
    · refine ⟨?_, ?_, ?_, ?_⟩ <;>
        simp [handleToggleComplete, toggleBody, hg, hA, dispatchLoop_attempts]
    · have hA' : env.admins = [] := by
        cases henv : env.admins with
        | nil => rfl
        | cons a l => rw [henv] at hA; simp at hA
      refine ⟨?_, ?_, ?_, ?_⟩ <;>
        simp [handleToggleComplete, toggleBody, hg, hA, hA', buildNotifications,
          adminProfiles, dispatchLoop]
  · exfalso
    by_cases hac : (!allCompleted (updateItems s.items item.id)) = true <;>
      simp [handleToggleComplete, toggleBody, hg, hac] at hfired

theorem filter_map_user_length (l : List Nat) (g : Nat → NotificationRecord) (a : Nat)
    (hg : ∀ x, (g x).user_id = x) (hnodup : l.Nodup) (ha : a ∈ l) :
    ((l.map g).filter (fun n => n.user_id = a)).length = 1 := by
  induction l with
  | nil => cases ha
  | cons x xs ih =>
    rcases List.mem_cons.mp ha with h1 | h2
    · subst h1
      rw [List.map_cons, List.filter_cons, if_pos (by simp [hg]), List.length_cons]
      have hax : a ∉ xs := (List.nodup_cons.mp hnodup).1
      have hzero : (List.filter (fun n => decide (n.user_id = a)) (xs.map g)).length = 0 := by
        rw [List.length_eq_zero, List.filter_eq_nil_iff]
        intro n hn
        rcases List.mem_map.mp hn with ⟨y, hy, hgy⟩
        subst hgy
        simp only [hg, decide_eq_true_eq]
        intro h
        exact hax (h ▸ hy)
      omega
    · have hax : x ≠ a := fun h => (List.nodup_cons.mp hnodup).1 (h ▸ h2)
      rw [List.map_cons, List.filter_cons, if_neg (by simp [hg, hax])]
      exact ih (List.nodup_cons.mp hnodup).2 h2

/-- C5: when the all-complete branch fires (and the batch insert succeeds), exactly
one in-app notification of type `all_tasks_complete` referencing the checklist is
stored per admin, and an external dispatch attempt is made exactly for the admins
whose profile has a phone on file — phoneless admins get the in-app record but no
dispatch attempt. -/
theorem fire_notifies_each_admin (db : List Completion) (s : PageState) (env : Env)
    (userId checklistId now : Nat) (item : ChecklistItem) (dispatchFails : Nat → Bool)
    (hnodup : env.admins.Nodup)
    (hfired : (handleToggleComplete db s env userId checklistId now item
        false false dispatchFails).fired = true) :
    (∀ a ∈ env.admins,
      (((handleToggleComplete db s env userId checklistId now item
          false false dispatchFails).insertedNotifs.filter
        (fun n => n.user_id = a)).length = 1)) ∧
    (∀ n ∈ (handleToggleComplete db s env userId checklistId now item
        false false dispatchFails).insertedNotifs,
      n.user_id ∈ env.admins ∧ n.type = "all_tasks_complete" ∧
        n.related_checklist_id = checklistId) ∧
    (∀ a : Nat, a ∈ (handleToggleComplete db s env userId checklistId now item
        false false dispatchFails).attempts ↔
      (a ∈ env.admins ∧ ∃ p ∈ env.profiles, p.user_id = a ∧ p.phone.isSome = true)) := by
  obtain ⟨hnotifs, hatt, -, -⟩ := handleToggle_fire_effects db s env userId checklistId
    now item false dispatchFails hfired
  rw [if_neg (by simp)] at hnotifs
  refine ⟨?_, ?_, ?_⟩
  · intro a ha
    rw [hnotifs]
    unfold buildNotifications
    exact filter_map_user_length env.admins _ a (fun x => rfl) hnodup ha
  · intro n hn
    rw [hnotifs] at hn
    unfold buildNotifications at hn
    rcases List.mem_map.mp hn with ⟨a, ha, hga⟩
    subst hga
    exact ⟨ha, rfl, rfl⟩
  · intro a
    rw [hatt]
    unfold adminProfiles
    constructor
    · intro hmem
      rcases List.mem_map.mp hmem with ⟨p, hp, hpa⟩
      have hp1 := List.mem_filter.mp hp
      have hp2 := List.mem_filter.mp hp1.1
      refine ⟨?_, p, hp2.1, hpa, hp1.2⟩
      rw [← hpa]
      have := hp2.2
      simpa [List.contains, List.elem_iff] using this
    · rintro ⟨hain, p, hp, hpa, hph⟩
      apply List.mem_map.mpr
      refine ⟨p, List.mem_filter.mpr ⟨List.mem_filter.mpr ⟨hp, ?_⟩, hph⟩, hpa⟩
      simp [List.contains, List.elem_iff, hpa, hain]

/-- Witness for C5: two admins, one without a phone — both get exactly one in-app
record; only the phone-holding admin is attempted externally. -/
theorem fire_notifies_each_admin_witness :
    (((handleToggleComplete [] ⟨[⟨1, "t", 0, false⟩], false⟩
        ⟨[7, 8], [⟨7, "a@x", some "555"⟩, ⟨8, "b@x", none⟩], "Emp", "Kitchen", "Opening"⟩
        4 9 0 ⟨1, "t", 0, false⟩ false false (fun _ => false)).insertedNotifs.filter
      (fun n => n.user_id = 7)).length = 1) ∧
    (((handleToggleComplete [] ⟨[⟨1, "t", 0, false⟩], false⟩
        ⟨[7, 8], [⟨7, "a@x", some "555"⟩, ⟨8, "b@x", none⟩], "Emp", "Kitchen", "Opening"⟩
        4 9 0 ⟨1, "t", 0, false⟩ false false (fun _ => false)).insertedNotifs.filter
      (fun n => n.user_id = 8)).length = 1) ∧
    (7 ∈ (handleToggleComplete [] ⟨[⟨1, "t", 0, false⟩], false⟩
        ⟨[7, 8], [⟨7, "a@x", some "555"⟩, ⟨8, "b@x", none⟩], "Emp", "Kitchen", "Opening"⟩
        4 9 0 ⟨1, "t", 0, false⟩ false false (fun _ => false)).attempts) ∧
    ¬(8 ∈ (handleToggleComplete [] ⟨[⟨1, "t", 0, false⟩], false⟩
        ⟨[7, 8], [⟨7, "a@x", some "555"⟩, ⟨8, "b@x", none⟩], "Emp", "Kitchen", "Opening"⟩
        4 9 0 ⟨1, "t", 0, false⟩ false false (fun _ => false)).attempts) := by
  have h := fire_notifies_each_admin [] ⟨[⟨1, "t", 0, false⟩], false⟩
    ⟨[7, 8], [⟨7, "a@x", some "555"⟩, ⟨8, "b@x", none⟩], "Emp", "Kitchen", "Opening"⟩
    4 9 0 ⟨1, "t", 0, false⟩ (fun _ => false) (by decide) (by decide)
  refine ⟨h.1 7 (by decide), h.1 8 (by decide), (h.2.2 7).mpr (by decide), ?_⟩
  intro hmem
  exact absurd ((h.2.2 8).mp hmem) (by decide)

/-! ### C6 -/

/-- Counterexample to C6: a toggle that completes the checklist while the
notifications batch insert fails.  The insert's result is discarded (its error is
never checked), so the notify pass is not reported as failed: no error toast is
shown, the success path continues and even attempts the external dispatch.  The
claim's assertion that the failure is reported does not hold. -/
theorem notif_insert_failure_not_reported :
    ((handleToggleComplete [] ⟨[⟨1, "t", 0, false⟩], false⟩
        ⟨[7], [⟨7, "a@x", some "555"⟩], "Emp", "Kitchen", "Opening"⟩
        4 9 0 ⟨1, "t", 0, false⟩ false true (fun _ => false)).notifInsertFailed = true) ∧
    ((handleToggleComplete [] ⟨[⟨1, "t", 0, false⟩], false⟩
        ⟨[7], [⟨7, "a@x", some "555"⟩], "Emp", "Kitchen", "Opening"⟩
        4 9 0 ⟨1, "t", 0, false⟩ false true (fun _ => false)).errorToast = false) ∧
    ((handleToggleComplete [] ⟨[⟨1, "t", 0, false⟩], false⟩
        ⟨[7], [⟨7, "a@x", some "555"⟩], "Emp", "Kitchen", "Opening"⟩
        4 9 0 ⟨1, "t", 0, false⟩ false true (fun _ => false)).fired = true) ∧
    ((handleToggleComplete [] ⟨[⟨1, "t", 0, false⟩], false⟩
        ⟨[7], [⟨7, "a@x", some "555"⟩], "Emp", "Kitchen", "Opening"⟩
        4 9 0 ⟨1, "t", 0, false⟩ false true (fun _ => false)).insertedNotifs = []) ∧
    ((handleToggleComplete [] ⟨[⟨1, "t", 0, false⟩], false⟩
        ⟨[7], [⟨7, "a@x", some "555"⟩], "Emp", "Kitchen", "Opening"⟩
        4 9 0 ⟨1, "t", 0, false⟩ false true (fun _ => false)).attempts = [7]) ∧
    ((handleToggleComplete [] ⟨[⟨1, "t", 0, false⟩], false⟩
        ⟨[7], [⟨7, "a@x", some "555"⟩], "Emp", "Kitchen", "Opening"⟩
        4 9 0 ⟨1, "t", 0, false⟩ false true (fun _ => false)).db = [⟨1, 4, 9, 0⟩]) := by
  decide

/-- C6 as amended: a failed batch insert of the in-app notifications is silently
ignored — its result object is never checked — so no failure is reported (no error
toast), no notification rows are stored, the external dispatch loop still runs, and
the task-completion row persisted by the toggle is unaffected. -/
theorem notif_insert_failure_ignored (db : List Completion) (s : PageState) (env : Env)
    (userId checklistId now : Nat) (item : ChecklistItem) (dispatchFails : Nat → Bool)
    (hfired : (handleToggleComplete db s env userId checklistId now item
        false true dispatchFails).fired = true) :
    (handleToggleComplete db s env userId checklistId now item
        false true dispatchFails).errorToast = false ∧
    (handleToggleComplete db s env userId checklistId now item
        false true dispatchFails).insertedNotifs = [] ∧
    (handleToggleComplete db s env userId checklistId now item
        false true dispatchFails).attempts =
      ((adminProfiles env.profiles env.admins).filter
        (fun p => p.phone.isSome)).map (fun p => p.user_id) ∧
    (handleToggleComplete db s env userId checklistId now item
        false true dispatchFails).db =
      (toggleWrite db item userId checklistId now).1 := by
  obtain ⟨hnotifs, hatt, htoast, hdb⟩ := handleToggle_fire_effects db s env userId
    checklistId now item true dispatchFails hfired
  rw [if_pos rfl] at hnotifs
  exact ⟨htoast, hnotifs, hatt, hdb⟩

/-- Witness for C6's amended statement at a concrete completing toggle. -/
theorem notif_insert_failure_ignored_witness :
    ((handleToggleComplete [] ⟨[⟨2, "u", 0, false⟩], false⟩
        ⟨[5], [⟨5, "c@x", some "777"⟩], "Emp", "Bar", "Closing"⟩
        3 8 1 ⟨2, "u", 0, false⟩ false true (fun _ => false)).errorToast = false) ∧
    ((handleToggleComplete [] ⟨[⟨2, "u", 0, false⟩], false⟩
        ⟨[5], [⟨5, "c@x", some "777"⟩], "Emp", "Bar", "Closing"⟩
        3 8 1 ⟨2, "u", 0, false⟩ false true (fun _ => false)).insertedNotifs = []) ∧
    ((handleToggleComplete [] ⟨[⟨2, "u", 0, false⟩], false⟩
        ⟨[5], [⟨5, "c@x", some "777"⟩], "Emp", "Bar", "Closing"⟩
        3 8 1 ⟨2, "u", 0, false⟩ false true (fun _ => false)).db =
      (toggleWrite [] ⟨2, "u", 0, false⟩ 3 8 1).1) := by
  have h := notif_insert_failure_ignored [] ⟨[⟨2, "u", 0, false⟩], false⟩
    ⟨[5], [⟨5, "c@x", some "777"⟩], "Emp", "Bar", "Closing"⟩
    3 8 1 ⟨2, "u", 0, false⟩ (fun _ => false) (by decide)
  exact ⟨h.1, h.2.1, h.2.2.2⟩

/-! ### C8 -/

/-- Counterexample to C8: a CORS preflight OPTIONS request carries no credential at
all, yet the handler answers it with status 200 (permissive CORS headers, null
body) before any authentication check — so not every unauthenticated caller is
rejected with a 4xx-class error. -/
theorem options_preflight_unauthenticated_200 :
    (serveNotification ⟨"OPTIONS", none, none⟩ (fun _ => false) false
        (Except.error "boom")).status = 200 ∧
    ¬(400 ≤ (serveNotification ⟨"OPTIONS", none, none⟩ (fun _ => false) false
        (Except.error "boom")).status ∧
      (serveNotification ⟨"OPTIONS", none, none⟩ (fun _ => false) false
        (Except.error "boom")).status < 500) := by
  decide

/-- C8 as amended: every unauthenticated non-preflight caller (missing
`Authorization` header, header without the `Bearer ` scheme, or a credential the
auth service rejects) is answered with status 401, a 4xx-class error; the response
never depends on the internal error detail, and when an authenticated,
well-formed request fails internally the body carries the constant generic message
`'An unexpected error occurred'`. -/
theorem non_preflight_auth_and_generic_errors (req : HttpRequest)
    (tokenValid : String → Bool) (configured : Bool) (apiResult : Except String Unit)
    (detail : String) (hm : ¬(req.method = "OPTIONS")) :
    (req.authHeader = none →
      (serveNotification req tokenValid configured apiResult).status = 401) ∧
    (∀ h, req.authHeader = some h →
      (hasBearer h = false ∨ tokenValid h = false) →
      (serveNotification req tokenValid configured apiResult).status = 401) ∧
    (400 ≤ 401 ∧ 401 < 500) ∧
    (serveNotification req tokenValid configured (Except.error detail) =
      serveNotification req tokenValid configured (Except.error "")) ∧
    (∀ h b, req.authHeader = some h → hasBearer h = true →
      tokenValid h = true → configured = true → req.body = some b →
      ¬(b.userId = "" ∨ b.userEmail = "" ∨ b.title = "" ∨ b.message = "") →
      ¬(200 < b.title.length ∨ 2000 < b.message.length) →
      serveNotification req tokenValid configured (Except.error detail) =
        { status := 500, error := some "An unexpected error occurred",
          success := some false }) := by
  refine ⟨?_, ?_, by omega, ?_, ?_⟩
  · intro hnone
    simp [serveNotification, hm, hnone]
  · intro h hsome hbad
    rcases hbad with hb | hb
    · simp [serveNotification, hm, hsome, hb]
    · unfold serveNotification
      rw [if_neg hm, hsome]
      cases hsw : hasBearer h <;> simp [hsw, hb]
  · unfold serveNotification
    rw [if_neg hm]
  · intro h b hsome hb ht hc hbody hfields hlen
    have h1 : ¬b.userId = "" := fun hx => hfields (Or.inl hx)
    have h2 : ¬b.userEmail = "" := fun hx => hfields (Or.inr (Or.inl hx))
    have h3 : ¬b.title = "" := fun hx => hfields (Or.inr (Or.inr (Or.inl hx)))
    have h4 : ¬b.message = "" := fun hx => hfields (Or.inr (Or.inr (Or.inr hx)))
    have h5 : ¬(200 < b.title.length) := fun hx => hlen (Or.inl hx)
    have h6 : ¬(2000 < b.message.length) := fun hx => hlen (Or.inr hx)
    unfold serveNotification
    rw [if_neg hm, hsome]
    simp [hb, ht, hc, hbody, h1, h2, h3, h4, h5, h6]

/-- Witness for C8's amended statement: an authenticated, well-formed request whose
external send throws an internal error message — the response is the generic 500
with no trace of the detail. -/
theorem non_preflight_auth_and_generic_errors_witness :
    serveNotification
        ⟨"POST", some "Bearer tok", some ⟨"u1", "a@x", some "555", "Shift done", "All tasks complete"⟩⟩
        (fun _ => true) true (Except.error "pg: connection refused at 10.0.0.5") =
      { status := 500, error := some "An unexpected error occurred",
        success := some false } := by
  have h := non_preflight_auth_and_generic_errors
    ⟨"POST", some "Bearer tok", some ⟨"u1", "a@x", some "555", "Shift done", "All tasks complete"⟩⟩
    (fun _ => true) true (Except.error "pg: connection refused at 10.0.0.5")
    "pg: connection refused at 10.0.0.5" (by decide)
  exact h.2.2.2.2 "Bearer tok" ⟨"u1", "a@x", some "555", "Shift done", "All tasks complete"⟩
    rfl (by decide) rfl rfl rfl (by decide) (by decide)

end StaffChecklist
